import Mathlib

/-!
Shallow embedding of the dm-po2zone device-mapper target: a zoned block
device whose physical zones have non-power-of-two size is exposed as a
logical device whose zones have the smallest power-of-two size not below
the physical size.  Sectors are modelled as `Nat` (kernel `sector_t`);
the arithmetic never overflows in the reachable range, so no `% 2^64`
truncation is applied.
-/

/-- The per-target configuration `struct dm_po2z_target` (device handle
dropped: only the geometry fields enter the arithmetic). -/
structure DmPo2zTarget where
  zone_size : Nat
  zone_size_po2 : Nat
  zone_size_po2_shift : Nat
  zone_size_diff : Nat
  nr_zones : Nat
deriving DecidableEq

/-- `npo2_zone_no`: physical zone index of a device sector (`div64_u64`). -/
def npo2_zone_no (dmh : DmPo2zTarget) (sect : Nat) : Nat :=
  sect / dmh.zone_size

/-- `po2_zone_no`: logical zone index of a target sector (shift by the
power-of-two zone order). -/
def po2_zone_no (dmh : DmPo2zTarget) (sect : Nat) : Nat :=
  sect >>> dmh.zone_size_po2_shift

/-- `target_to_device_sect`: logical (target) sector to physical (device)
sector. -/
def target_to_device_sect (dmh : DmPo2zTarget) (sect : Nat) : Nat :=
  sect - po2_zone_no dmh sect * dmh.zone_size_diff

/-- `device_to_target_sect`: physical (device) sector to logical (target)
sector. -/
def device_to_target_sect (dmh : DmPo2zTarget) (sect : Nat) : Nat :=
  sect + npo2_zone_no dmh sect * dmh.zone_size_diff

/-- `fls_long` (find last set), fuel-for-termination formulation:
`flsAux fuel n` is the 1-based index of the highest set bit of `n`
whenever `n ≤ fuel`, and `fls 0 = 0`. -/
def flsAux : Nat → Nat → Nat
  | _, 0 => 0
  | 0, _ + 1 => 0
  | fuel + 1, n + 1 => flsAux fuel ((n + 1) / 2) + 1

/-- `fls_long l` of the kernel. -/
def fls (n : Nat) : Nat := flsAux n n

/-- `get_count_order_long l` for `l > 0`: `fls_long(l - 1)`, the order of
the smallest power of two not below `l`. -/
def get_count_order_long (l : Nat) : Nat := fls (l - 1)

/-- Kernel `ilog2` for runtime values: `fls(n) - 1`. -/
def ilog2 (n : Nat) : Nat := fls n - 1

/-- The geometry part of `dm_po2z_ctr`: from the backing device's zone
size and capacity, derive the target fields and the exposed logical
length `ti->len = zone_size_po2 * nr_zones`. -/
def dm_po2z_ctr (zone_size dev_capacity : Nat) : DmPo2zTarget × Nat :=
  let zone_size_po2 := 1 <<< get_count_order_long zone_size
  let dmh : DmPo2zTarget :=
    { zone_size := zone_size
      zone_size_po2 := zone_size_po2
      zone_size_po2_shift := ilog2 zone_size_po2
      zone_size_diff := zone_size_po2 - zone_size
      nr_zones := dev_capacity / zone_size }
  (dmh, dmh.zone_size_po2 * dmh.nr_zones)

/-- Invariants of a constructed target, used as hypotheses by the
arithmetic lemmas; `dm_po2z_ctr` establishes them for any positive
physical zone size. -/
@[reducible] def DmPo2zTarget.wf (dmh : DmPo2zTarget) : Prop :=
  0 < dmh.zone_size ∧
  dmh.zone_size_po2 = 2 ^ dmh.zone_size_po2_shift ∧
  dmh.zone_size ≤ dmh.zone_size_po2 ∧
  dmh.zone_size_diff = dmh.zone_size_po2 - dmh.zone_size

/-- Request operation kinds (`REQ_OP_*`) reaching the target. -/
inductive ReqOp
  | read
  | write
  | flush
  | zoneAppend
  | zoneReset
  | zoneOpen
  | zoneClose
  | zoneFinish
deriving DecidableEq

/-- `op_is_zone_mgmt`. -/
def op_is_zone_mgmt : ReqOp → Bool
  | .zoneReset | .zoneOpen | .zoneClose | .zoneFinish => true
  | _ => false

/-- The slice of `struct bio` the target touches: start sector
(`bi_iter.bi_sector`), length in sectors (`bi_iter.bi_size >> 9`),
operation, completion status, plus two flags recording the externally
visible effects `zero_fill_bio` and `bio_endio`. -/
structure Bio where
  sector : Nat
  len : Nat
  op : ReqOp
  status : Nat
  zeroed : Bool
  ended : Bool
deriving DecidableEq

/-- `BLK_STS_OK`. -/
def BLK_STS_OK : Nat := 0

/-- The `DM_MAPIO_*` value returned by the map hook. -/
inductive MapRet
  | remapped
  | submitted
  | kill
deriving DecidableEq

/-- `bio_across_emulated_zone_area`. -/
def bio_across_emulated_zone_area (dmh : DmPo2zTarget) (bio : Bio) : Bool :=
  decide (bio.sector + bio.len >
    po2_zone_no dmh bio.sector * dmh.zone_size_po2 + dmh.zone_size)

/-- `dm_po2z_map_read_emulated_area`: `dm_accept_partial_bio` is modelled
by trimming `len` (the framework re-submits the remainder), and
`zero_fill_bio`/`bio_endio` by the two flags. -/
def dm_po2z_map_read_emulated_area (dmh : DmPo2zTarget) (bio : Bio) :
    MapRet × Bio :=
  let start_sect := bio.sector
  let zone_idx := po2_zone_no dmh start_sect
  let relative_sect_in_zone := start_sect - zone_idx * dmh.zone_size_po2
  if relative_sect_in_zone < dmh.zone_size then
    let split_io_pos := zone_idx * dmh.zone_size_po2 + dmh.zone_size
    (MapRet.remapped,
      { bio with
        len := split_io_pos - start_sect
        sector := target_to_device_sect dmh start_sect })
  else
    (MapRet.submitted, { bio with zeroed := true, ended := true })

/-- `dm_po2z_map`. -/
def dm_po2z_map (dmh : DmPo2zTarget) (bio : Bio) : MapRet × Bio :=
  if bio.len != 0 || op_is_zone_mgmt bio.op then
    if !bio_across_emulated_zone_area dmh bio then
      (MapRet.remapped,
        { bio with sector := target_to_device_sect dmh bio.sector })
    else if bio.op = ReqOp.read then
      dm_po2z_map_read_emulated_area dmh bio
    else
      (MapRet.kill, bio)
  else
    (MapRet.remapped, bio)

/-- The slice of `struct blk_zone` the report callback touches. -/
structure BlkZone where
  start : Nat
  wp : Nat
  len : Nat
  cond : Nat
  type : Nat
deriving DecidableEq

/-- The slice of `struct dm_report_zones_args` the target touches. -/
structure ReportZonesArgs where
  next_sector : Nat
  zone_idx : Nat
deriving DecidableEq

/-- `dm_po2z_report_zones_cb`: returns the translated descriptor handed
to `args->orig_cb` and the updated args (cursor and running index). -/
def dm_po2z_report_zones_cb (dmh : DmPo2zTarget) (zone : BlkZone)
    (args : ReportZonesArgs) : BlkZone × ReportZonesArgs :=
  let zone' : BlkZone :=
    { zone with
      start := device_to_target_sect dmh zone.start
      wp := device_to_target_sect dmh zone.wp
      len := dmh.zone_size_po2 }
  (zone',
    { args with
      next_sector := zone'.start + zone'.len
      zone_idx := args.zone_idx + 1 })

/-- `dm_po2z_report_zones`: the start sector handed to
`blkdev_report_zones` for a given cursor. -/
def dm_po2z_report_zones (dmh : DmPo2zTarget) (args : ReportZonesArgs) : Nat :=
  po2_zone_no dmh args.next_sector * dmh.zone_size

/-- `DM_ENDIO_DONE`. -/
def DM_ENDIO_DONE : Nat := 0

/-- The completion hook `dm_po2z_end_io` (renamed to satisfy local naming
rules): rewrites the landing sector of a successful zone append back into
target coordinates. -/
def dm_po2z_end_io_hook (dmh : DmPo2zTarget) (bio : Bio) : Bio × Nat :=
  if bio.status = BLK_STS_OK ∧ bio.op = ReqOp.zoneAppend then
    ({ bio with sector := device_to_target_sect dmh bio.sector },
      DM_ENDIO_DONE)
  else
    (bio, DM_ENDIO_DONE)

/-- Concrete geometry of the spec's running example: physical zone size
12 sectors, capacity 120 sectors. -/
def geo12 : DmPo2zTarget := (dm_po2z_ctr 12 120).1

/-! ## Helper lemmas -/

theorem flsAux_lt_two_pow : ∀ fuel n, n ≤ fuel → n < 2 ^ flsAux fuel n := by
  intro fuel
  induction fuel with
  | zero =>
    intro n hn
    have hn0 : n = 0 := by omega
    subst hn0
    simp [flsAux]
  | succ f ih =>
    intro n hn
    match n with
    | 0 => simp [flsAux]
    | m + 1 =>
      have h2 : (m + 1) / 2 ≤ f := by omega
      have h := ih ((m + 1) / 2) h2
      have hp : 2 ^ (flsAux f ((m + 1) / 2) + 1) =
          2 ^ flsAux f ((m + 1) / 2) * 2 := pow_succ 2 _
      show m + 1 < 2 ^ (flsAux f ((m + 1) / 2) + 1)
      omega

theorem flsAux_le : ∀ fuel n k, n ≤ fuel → n < 2 ^ k → flsAux fuel n ≤ k := by
  intro fuel
  induction fuel with
  | zero =>
    intro n k hn _
    have hn0 : n = 0 := by omega
    subst hn0
    simp [flsAux]
  | succ f ih =>
    intro n k hn hk
    match n with
    | 0 => simp [flsAux]
    | m + 1 =>
      match k with
      | 0 =>
        have h1 : (2 : Nat) ^ 0 = 1 := pow_zero 2
        omega
      | j + 1 =>
        show flsAux f ((m + 1) / 2) + 1 ≤ j + 1
        have h2 : (m + 1) / 2 ≤ f := by omega
        have hj : (m + 1) / 2 < 2 ^ j := by
          have hp : 2 ^ (j + 1) = 2 ^ j * 2 := pow_succ 2 j
          omega
        exact Nat.succ_le_succ (ih _ _ h2 hj)

theorem fls_lt_two_pow (n : Nat) : n < 2 ^ fls n :=
  flsAux_lt_two_pow n n le_rfl

theorem fls_le_of_lt_two_pow (n k : Nat) (h : n < 2 ^ k) : fls n ≤ k :=
  flsAux_le n n k le_rfl h

theorem fls_two_pow (k : Nat) : fls (2 ^ k) = k + 1 := by
  have h1 : 2 ^ k < 2 ^ fls (2 ^ k) := fls_lt_two_pow (2 ^ k)
  have h2 : fls (2 ^ k) ≤ k + 1 := by
    apply fls_le_of_lt_two_pow
    have hp : 2 ^ (k + 1) = 2 ^ k * 2 := pow_succ 2 k
    have hpos : 0 < 2 ^ k := Nat.two_pow_pos k
    omega
  have h3 : k < fls (2 ^ k) := (Nat.pow_lt_pow_iff_right (by norm_num)).mp h1
  omega

theorem dm_po2z_ctr_fields (zs cap : Nat) :
    (dm_po2z_ctr zs cap).1.zone_size = zs ∧
    (dm_po2z_ctr zs cap).1.zone_size_po2 = 2 ^ fls (zs - 1) ∧
    (dm_po2z_ctr zs cap).1.zone_size_po2_shift = fls (zs - 1) ∧
    (dm_po2z_ctr zs cap).1.zone_size_diff = 2 ^ fls (zs - 1) - zs ∧
    (dm_po2z_ctr zs cap).1.nr_zones = cap / zs ∧
    (dm_po2z_ctr zs cap).2 = 2 ^ fls (zs - 1) * (cap / zs) := by
  have hpo2 : (1 : Nat) <<< fls (zs - 1) = 2 ^ fls (zs - 1) := by
    rw [Nat.shiftLeft_eq, one_mul]
  have hsh : ilog2 (2 ^ fls (zs - 1)) = fls (zs - 1) := by
    unfold ilog2
    rw [fls_two_pow]
    omega
  simp [dm_po2z_ctr, get_count_order_long, hpo2, hsh]

theorem dm_po2z_ctr_wf (zs cap : Nat) (hzs : 0 < zs) :
    (dm_po2z_ctr zs cap).1.wf := by
  obtain ⟨hz, hp, hs, hd, _, _⟩ := dm_po2z_ctr_fields zs cap
  have hle : zs ≤ 2 ^ fls (zs - 1) := by
    have h := fls_lt_two_pow (zs - 1)
    omega
  refine ⟨?_, ?_, ?_, ?_⟩
  · omega
  · rw [hp, hs]
  · omega
  · omega

theorem wf_po2_pos (dmh : DmPo2zTarget) (h : dmh.wf) : 0 < dmh.zone_size_po2 := by
  obtain ⟨h1, h2, h3, h4⟩ := h
  have := Nat.two_pow_pos dmh.zone_size_po2_shift
  omega

theorem po2_zone_no_eq_div (dmh : DmPo2zTarget) (h : dmh.wf) (s : Nat) :
    po2_zone_no dmh s = s / dmh.zone_size_po2 := by
  obtain ⟨h1, h2, h3, h4⟩ := h
  unfold po2_zone_no
  rw [Nat.shiftRight_eq_div_pow, ← h2]

theorem po2_zone_no_mul_add (dmh : DmPo2zTarget) (h : dmh.wf) (i r : Nat)
    (hr : r < dmh.zone_size_po2) :
    po2_zone_no dmh (i * dmh.zone_size_po2 + r) = i := by
  have hpos := wf_po2_pos dmh h
  rw [po2_zone_no_eq_div dmh h, Nat.mul_comm, Nat.mul_add_div hpos,
    Nat.div_eq_of_lt hr, Nat.add_zero]

theorem target_to_device_sect_eq (dmh : DmPo2zTarget) (h : dmh.wf) (s : Nat) :
    target_to_device_sect dmh s =
      s / dmh.zone_size_po2 * dmh.zone_size + s % dmh.zone_size_po2 := by
  have hdiv := po2_zone_no_eq_div dmh h s
  obtain ⟨h1, h2, h3, h4⟩ := h
  unfold target_to_device_sect
  rw [hdiv]
  have hdm := Nat.div_add_mod s dmh.zone_size_po2
  have hdist : s / dmh.zone_size_po2 * dmh.zone_size_po2 =
      s / dmh.zone_size_po2 * dmh.zone_size +
      s / dmh.zone_size_po2 * dmh.zone_size_diff := by
    rw [← Nat.mul_add]
    congr 1
    omega
  have hcomm : dmh.zone_size_po2 * (s / dmh.zone_size_po2) =
      s / dmh.zone_size_po2 * dmh.zone_size_po2 := Nat.mul_comm _ _
  omega

theorem npo2_target_to_device (dmh : DmPo2zTarget) (h : dmh.wf) (s : Nat)
    (hs : s % dmh.zone_size_po2 < dmh.zone_size) :
    npo2_zone_no dmh (target_to_device_sect dmh s) = s / dmh.zone_size_po2 := by
  have ht := target_to_device_sect_eq dmh h s
  obtain ⟨h1, h2, h3, h4⟩ := h
  unfold npo2_zone_no
  rw [ht, Nat.mul_comm (s / dmh.zone_size_po2) dmh.zone_size,
    Nat.mul_add_div h1, Nat.div_eq_of_lt hs, Nat.add_zero]

/-! ## Claim theorems -/

/-- C1: for every logical sector `s` that is not in an emulated region
(its offset within its logical zone is less than the physical zone size),
`device_to_target_sect (target_to_device_sect s) = s`: the two coordinate
transforms are mutual inverses on physically-backed sectors. -/
theorem po2zone_round_trip (dmh : DmPo2zTarget) (h : dmh.wf) (s : Nat)
    (hs : s % dmh.zone_size_po2 < dmh.zone_size) :
    device_to_target_sect dmh (target_to_device_sect dmh s) = s := by
  have ht := target_to_device_sect_eq dmh h s
  have hn := npo2_target_to_device dmh h s hs
  obtain ⟨h1, h2, h3, h4⟩ := h
  unfold device_to_target_sect
  rw [hn, ht]
  have hdm := Nat.div_add_mod s dmh.zone_size_po2
  have hdist : s / dmh.zone_size_po2 * dmh.zone_size_po2 =
      s / dmh.zone_size_po2 * dmh.zone_size +
      s / dmh.zone_size_po2 * dmh.zone_size_diff := by
    rw [← Nat.mul_add]
    congr 1
    omega
  have hcomm : dmh.zone_size_po2 * (s / dmh.zone_size_po2) =
      s / dmh.zone_size_po2 * dmh.zone_size_po2 := Nat.mul_comm _ _
  omega

theorem po2zone_round_trip_witness :
    geo12.wf ∧ 20 % geo12.zone_size_po2 < geo12.zone_size ∧
    device_to_target_sect geo12 (target_to_device_sect geo12 20) = 20 :=
  ⟨by decide, by decide, po2zone_round_trip geo12 (by decide) 20 (by decide)⟩

/-- C10: a physically-backed logical sector is remapped into the matching
physical zone at the same in-zone offset:
`target_to_device_sect s = po2_zone_no s * zone_size + s % zone_size_po2`,
and the physical zone index of the remapped sector equals the logical
zone index of `s`. -/
theorem po2zone_remap_same_zone (dmh : DmPo2zTarget) (h : dmh.wf) (s : Nat)
    (hs : s % dmh.zone_size_po2 < dmh.zone_size) :
    target_to_device_sect dmh s =
      po2_zone_no dmh s * dmh.zone_size + s % dmh.zone_size_po2 ∧
    npo2_zone_no dmh (target_to_device_sect dmh s) = po2_zone_no dmh s := by
  have hdiv := po2_zone_no_eq_div dmh h s
  constructor
  · rw [hdiv]
    exact target_to_device_sect_eq dmh h s
  · rw [hdiv]
    exact npo2_target_to_device dmh h s hs

theorem po2zone_remap_same_zone_witness :
    geo12.wf ∧ 21 % geo12.zone_size_po2 < geo12.zone_size ∧
    (target_to_device_sect geo12 21 =
      po2_zone_no geo12 21 * geo12.zone_size + 21 % geo12.zone_size_po2 ∧
    npo2_zone_no geo12 (target_to_device_sect geo12 21) = po2_zone_no geo12 21) :=
  ⟨by decide, by decide, po2zone_remap_same_zone geo12 (by decide) 21 (by decide)⟩

/-- C2: a request that carries at least one sector or is a zone-management
command, and whose range ends at or before the zone's backed/emulated
boundary `po2_zone_no start * zone_size_po2 + zone_size`, is remapped to
`target_to_device_sect start` with its length unchanged. -/
theorem po2zone_map_within_backed (dmh : DmPo2zTarget) (bio : Bio)
    (hcarry : bio.len ≠ 0 ∨ op_is_zone_mgmt bio.op = true)
    (hin : bio.sector + bio.len ≤
      po2_zone_no dmh bio.sector * dmh.zone_size_po2 + dmh.zone_size) :
    dm_po2z_map dmh bio =
      (MapRet.remapped,
        { bio with sector := target_to_device_sect dmh bio.sector }) := by
  have hac : bio_across_emulated_zone_area dmh bio = false := by
    unfold bio_across_emulated_zone_area
    simp only [decide_eq_false_iff_not]
    omega
  have hcond : (bio.len != 0 || op_is_zone_mgmt bio.op) = true := by
    rcases hcarry with hl | hm
    · simp [hl]
    · simp [hm]
  simp [dm_po2z_map, hcond, hac]

theorem po2zone_map_within_backed_witness :
    ((⟨17, 3, ReqOp.write, 0, false, false⟩ : Bio).len ≠ 0 ∨
      op_is_zone_mgmt (⟨17, 3, ReqOp.write, 0, false, false⟩ : Bio).op = true) ∧
    (17 + 3 ≤ po2_zone_no geo12 17 * geo12.zone_size_po2 + geo12.zone_size) ∧
    dm_po2z_map geo12 ⟨17, 3, ReqOp.write, 0, false, false⟩ =
      (MapRet.remapped, ⟨target_to_device_sect geo12 17, 3, ReqOp.write, 0, false, false⟩) :=
  ⟨Or.inl (by decide), by decide,
    po2zone_map_within_backed geo12 ⟨17, 3, ReqOp.write, 0, false, false⟩
      (Or.inl (by decide)) (by decide)⟩

/-- C4: a sector-carrying or zone-management request that is not a read
and whose range extends past the backed/emulated boundary of its zone is
rejected (`DM_MAPIO_KILL`); the bio is not modified. -/
theorem po2zone_map_nonread_emulated_kill (dmh : DmPo2zTarget) (bio : Bio)
    (hop : bio.op ≠ ReqOp.read)
    (hcarry : bio.len ≠ 0 ∨ op_is_zone_mgmt bio.op = true)
    (hcross : po2_zone_no dmh bio.sector * dmh.zone_size_po2 + dmh.zone_size <
      bio.sector + bio.len) :
    dm_po2z_map dmh bio = (MapRet.kill, bio) := by
  have hac : bio_across_emulated_zone_area dmh bio = true := by
    unfold bio_across_emulated_zone_area
    simp only [decide_eq_true_eq]
    omega
  have hcond : (bio.len != 0 || op_is_zone_mgmt bio.op) = true := by
    rcases hcarry with hl | hm
    · simp [hl]
    · simp [hm]
  simp [dm_po2z_map, hcond, hac, hop]

theorem po2zone_map_nonread_emulated_kill_witness :
    ((⟨13, 2, ReqOp.write, 0, false, false⟩ : Bio).op ≠ ReqOp.read) ∧
    ((⟨13, 2, ReqOp.write, 0, false, false⟩ : Bio).len ≠ 0 ∨
      op_is_zone_mgmt (⟨13, 2, ReqOp.write, 0, false, false⟩ : Bio).op = true) ∧
    (po2_zone_no geo12 13 * geo12.zone_size_po2 + geo12.zone_size < 13 + 2) ∧
    dm_po2z_map geo12 ⟨13, 2, ReqOp.write, 0, false, false⟩ =
      (MapRet.kill, ⟨13, 2, ReqOp.write, 0, false, false⟩) :=
  ⟨by decide, Or.inl (by decide), by decide,
    po2zone_map_nonread_emulated_kill geo12 ⟨13, 2, ReqOp.write, 0, false, false⟩
      (by decide) (Or.inl (by decide)) (by decide)⟩

/-- C6: the zone-report callback translates only the positional fields of
a physical zone descriptor: `start` and `wp` through
`device_to_target_sect`, `len` is always the full logical zone size, the
cursor advances to the translated `start + len`, and the `cond` (state)
and `type` fields pass through unchanged. -/
theorem po2zone_report_cb_translates (dmh : DmPo2zTarget) (zone : BlkZone)
    (args : ReportZonesArgs) :
    (dm_po2z_report_zones_cb dmh zone args).1.start =
        device_to_target_sect dmh zone.start ∧
    (dm_po2z_report_zones_cb dmh zone args).1.wp =
        device_to_target_sect dmh zone.wp ∧
    (dm_po2z_report_zones_cb dmh zone args).1.len = dmh.zone_size_po2 ∧
    (dm_po2z_report_zones_cb dmh zone args).2.next_sector =
        (dm_po2z_report_zones_cb dmh zone args).1.start +
        (dm_po2z_report_zones_cb dmh zone args).1.len ∧
    (dm_po2z_report_zones_cb dmh zone args).1.cond = zone.cond ∧
    (dm_po2z_report_zones_cb dmh zone args).1.type = zone.type :=
  ⟨rfl, rfl, rfl, rfl, rfl, rfl⟩

/-- C7 counterexample: the claim says the physical query start is
`(cursor / zone_size) * zone_size` (physical zone index of the cursor);
at cursor 12 with physical zone size 12 and logical zone size 16 the code
starts the query at sector 0, not 12. -/
theorem po2zone_report_zones_cursor_cex :
    dm_po2z_report_zones geo12 ⟨12, 0⟩ = 0 ∧
    12 / geo12.zone_size * geo12.zone_size = 12 ∧
    dm_po2z_report_zones geo12 ⟨12, 0⟩ ≠
      12 / geo12.zone_size * geo12.zone_size := by
  refine ⟨by decide, by decide, by decide⟩

/-- C7 amended: the zone index used to align the physical query start is
the logical zone index of the cursor (division by the power-of-two
logical zone size), multiplied by the physical zone size. -/
theorem po2zone_report_zones_cursor (dmh : DmPo2zTarget) (h : dmh.wf)
    (args : ReportZonesArgs) :
    dm_po2z_report_zones dmh args =
      args.next_sector / dmh.zone_size_po2 * dmh.zone_size := by
  unfold dm_po2z_report_zones
  rw [po2_zone_no_eq_div dmh h]

theorem po2zone_report_zones_cursor_witness :
    geo12.wf ∧
    dm_po2z_report_zones geo12 ⟨35, 0⟩ =
      35 / geo12.zone_size_po2 * geo12.zone_size :=
  ⟨by decide, po2zone_report_zones_cursor geo12 (by decide) ⟨35, 0⟩⟩

/-- C8: the completion hook rewrites the landing sector through
`device_to_target_sect` exactly when the operation is a zone append that
completed with `BLK_STS_OK`; every other field, and the sector in every
other case, passes through unchanged, and the hook always returns
`DM_ENDIO_DONE`. -/
theorem po2zone_end_io_hook_translates (dmh : DmPo2zTarget) (bio : Bio) :
    (dm_po2z_end_io_hook dmh bio).1.sector =
      (if bio.status = BLK_STS_OK ∧ bio.op = ReqOp.zoneAppend
        then device_to_target_sect dmh bio.sector else bio.sector) ∧
    (dm_po2z_end_io_hook dmh bio).1.len = bio.len ∧
    (dm_po2z_end_io_hook dmh bio).1.op = bio.op ∧
    (dm_po2z_end_io_hook dmh bio).1.status = bio.status ∧
    (dm_po2z_end_io_hook dmh bio).1.zeroed = bio.zeroed ∧
    (dm_po2z_end_io_hook dmh bio).1.ended = bio.ended ∧
    (dm_po2z_end_io_hook dmh bio).2 = DM_ENDIO_DONE := by
  by_cases hc : bio.status = BLK_STS_OK ∧ bio.op = ReqOp.zoneAppend <;>
    simp [dm_po2z_end_io_hook, hc]

/-- C9 counterexample: a zero-sector flush at logical sector 20 is passed
through with its sector unchanged (20), although boundary classification
and remapping (the claim's steps 2-4) would remap it to
`target_to_device_sect 20 = 16` since `20 + 0` is within the backed
region of its zone. -/
theorem po2zone_map_flush_cex :
    dm_po2z_map geo12 ⟨20, 0, ReqOp.flush, 0, false, false⟩ =
      (MapRet.remapped, ⟨20, 0, ReqOp.flush, 0, false, false⟩) ∧
    (20 + 0 ≤ po2_zone_no geo12 20 * geo12.zone_size_po2 + geo12.zone_size) ∧
    target_to_device_sect geo12 20 = 16 ∧
    (dm_po2z_map geo12 ⟨20, 0, ReqOp.flush, 0, false, false⟩).2.sector ≠
      target_to_device_sect geo12 20 := by
  refine ⟨by decide, by decide, by decide, by decide⟩

/-- C9 amended: a request that carries no sectors and is not a
zone-management command bypasses boundary classification and sector
remapping entirely: it is returned as remapped with every field, the
start sector included, unchanged. -/
theorem po2zone_map_no_sectors_passthrough (dmh : DmPo2zTarget) (bio : Bio)
    (h0 : bio.len = 0) (hop : op_is_zone_mgmt bio.op = false) :
    dm_po2z_map dmh bio = (MapRet.remapped, bio) := by
  simp [dm_po2z_map, h0, hop]

theorem po2zone_map_no_sectors_passthrough_witness :
    (⟨20, 0, ReqOp.flush, 0, false, false⟩ : Bio).len = 0 ∧
    op_is_zone_mgmt (⟨20, 0, ReqOp.flush, 0, false, false⟩ : Bio).op = false ∧
    dm_po2z_map geo12 ⟨20, 0, ReqOp.flush, 0, false, false⟩ =
      (MapRet.remapped, ⟨20, 0, ReqOp.flush, 0, false, false⟩) :=
  ⟨by decide, by decide,
    po2zone_map_no_sectors_passthrough geo12 ⟨20, 0, ReqOp.flush, 0, false, false⟩
      (by decide) (by decide)⟩

/-- C5: for any positive physical zone size and any capacity, the
constructor yields a `zone_size_po2` that is the smallest power of two
not below `zone_size` (equal exactly when `zone_size` is already a power
of two), `zone_size_diff = zone_size_po2 - zone_size`,
`nr_zones = capacity / zone_size`, and an exposed logical length of
`zone_size_po2 * nr_zones`. -/
theorem po2zone_ctr_geometry (zs cap : Nat) (hzs : 0 < zs) :
    (∃ k, (dm_po2z_ctr zs cap).1.zone_size_po2 = 2 ^ k) ∧
    zs ≤ (dm_po2z_ctr zs cap).1.zone_size_po2 ∧
    (∀ k, zs ≤ 2 ^ k → (dm_po2z_ctr zs cap).1.zone_size_po2 ≤ 2 ^ k) ∧
    ((dm_po2z_ctr zs cap).1.zone_size_po2 = zs ↔ ∃ k, zs = 2 ^ k) ∧
    (dm_po2z_ctr zs cap).1.zone_size_diff =
      (dm_po2z_ctr zs cap).1.zone_size_po2 - zs ∧
    (dm_po2z_ctr zs cap).1.nr_zones = cap / zs ∧
    (dm_po2z_ctr zs cap).2 =
      (dm_po2z_ctr zs cap).1.zone_size_po2 * (dm_po2z_ctr zs cap).1.nr_zones := by
  obtain ⟨hz, hp, hsh, hd, hn, hlen⟩ := dm_po2z_ctr_fields zs cap
  have hle : zs ≤ 2 ^ fls (zs - 1) := by
    have h := fls_lt_two_pow (zs - 1)
    omega
  have hmin : ∀ k, zs ≤ 2 ^ k → 2 ^ fls (zs - 1) ≤ 2 ^ k := by
    intro k hk
    apply Nat.pow_le_pow_right (by norm_num)
    apply fls_le_of_lt_two_pow
    omega
  refine ⟨⟨fls (zs - 1), hp⟩, ?_, ?_, ?_, ?_, ?_, ?_⟩
  · omega
  · intro k hk
    rw [hp]
    exact hmin k hk
  · constructor
    · intro he
      exact ⟨fls (zs - 1), by omega⟩
    · rintro ⟨k, hk⟩
      have h1 : 2 ^ fls (zs - 1) ≤ 2 ^ k := hmin k (le_of_eq hk)
      omega
  · omega
  · exact hn
  · rw [hlen, hp, hn]

theorem po2zone_ctr_geometry_witness :
    0 < 12 ∧
    ((∃ k, (dm_po2z_ctr 12 120).1.zone_size_po2 = 2 ^ k) ∧
    12 ≤ (dm_po2z_ctr 12 120).1.zone_size_po2 ∧
    (∀ k, 12 ≤ 2 ^ k → (dm_po2z_ctr 12 120).1.zone_size_po2 ≤ 2 ^ k) ∧
    ((dm_po2z_ctr 12 120).1.zone_size_po2 = 12 ↔ ∃ k, 12 = 2 ^ k) ∧
    (dm_po2z_ctr 12 120).1.zone_size_diff =
      (dm_po2z_ctr 12 120).1.zone_size_po2 - 12 ∧
    (dm_po2z_ctr 12 120).1.nr_zones = 120 / 12 ∧
    (dm_po2z_ctr 12 120).2 =
      (dm_po2z_ctr 12 120).1.zone_size_po2 * (dm_po2z_ctr 12 120).1.nr_zones) :=
  ⟨by decide, po2zone_ctr_geometry 12 120 (by decide)⟩

/-- C3: a read spanning the backed/emulated boundary of its logical zone
is split there: the backed part of exactly `k` sectors is accepted and
remapped to `target_to_device_sect start`, and the re-submitted part
starting at the boundary is filled with zeroes and completed without
being forwarded to the physical device. -/
theorem po2zone_map_read_split_at_boundary (dmh : DmPo2zTarget) (h : dmh.wf)
    (i k m status : Nat)
    (hk : 0 < k) (hkz : k ≤ dmh.zone_size)
    (hm : 0 < m) (hmd : m ≤ dmh.zone_size_diff) :
    dm_po2z_map dmh
        ⟨i * dmh.zone_size_po2 + (dmh.zone_size - k), k + m,
          ReqOp.read, status, false, false⟩ =
      (MapRet.remapped,
        ⟨target_to_device_sect dmh (i * dmh.zone_size_po2 + (dmh.zone_size - k)),
          k, ReqOp.read, status, false, false⟩) ∧
    dm_po2z_map dmh
        ⟨i * dmh.zone_size_po2 + dmh.zone_size, m,
          ReqOp.read, status, false, false⟩ =
      (MapRet.submitted,
        ⟨i * dmh.zone_size_po2 + dmh.zone_size, m,
          ReqOp.read, status, true, true⟩) := by
  have hzs : 0 < dmh.zone_size := h.1
  have hle : dmh.zone_size ≤ dmh.zone_size_po2 := h.2.2.1
  have hdf : dmh.zone_size_diff = dmh.zone_size_po2 - dmh.zone_size := h.2.2.2
  have hzlt : dmh.zone_size < dmh.zone_size_po2 := by omega
  have hz1 : po2_zone_no dmh (i * dmh.zone_size_po2 + (dmh.zone_size - k)) = i :=
    po2_zone_no_mul_add dmh h i _ (by omega)
  have hz2 : po2_zone_no dmh (i * dmh.zone_size_po2 + dmh.zone_size) = i :=
    po2_zone_no_mul_add dmh h i _ (by omega)
  constructor
  · have hac : bio_across_emulated_zone_area dmh
        ⟨i * dmh.zone_size_po2 + (dmh.zone_size - k), k + m,
          ReqOp.read, status, false, false⟩ = true := by
      unfold bio_across_emulated_zone_area
      simp only [decide_eq_true_eq]
      show i * dmh.zone_size_po2 + (dmh.zone_size - k) + (k + m) >
        po2_zone_no dmh (i * dmh.zone_size_po2 + (dmh.zone_size - k)) *
          dmh.zone_size_po2 + dmh.zone_size
      rw [hz1]
      omega
    have hlen : k + m ≠ 0 := by omega
    simp only [dm_po2z_map, hac, Bool.not_true]
    rw [if_pos (by simp [hlen, op_is_zone_mgmt]), if_neg (by simp), if_pos trivial]
    simp only [dm_po2z_map_read_emulated_area, hz1]
    rw [if_pos (by omega : i * dmh.zone_size_po2 + (dmh.zone_size - k) -
      i * dmh.zone_size_po2 < dmh.zone_size)]
    simp only [Prod.mk.injEq, Bio.mk.injEq, true_and, and_true]
    omega
  · have hac : bio_across_emulated_zone_area dmh
        ⟨i * dmh.zone_size_po2 + dmh.zone_size, m,
          ReqOp.read, status, false, false⟩ = true := by
      unfold bio_across_emulated_zone_area
      simp only [decide_eq_true_eq]
      show i * dmh.zone_size_po2 + dmh.zone_size + m >
        po2_zone_no dmh (i * dmh.zone_size_po2 + dmh.zone_size) *
          dmh.zone_size_po2 + dmh.zone_size
      rw [hz2]
      omega
    have hlen : m ≠ 0 := by omega
    simp only [dm_po2z_map, hac, Bool.not_true]
    rw [if_pos (by simp [hlen, op_is_zone_mgmt]), if_neg (by simp), if_pos trivial]
    simp only [dm_po2z_map_read_emulated_area, hz2]
    rw [if_neg (by omega : ¬(i * dmh.zone_size_po2 + dmh.zone_size -
      i * dmh.zone_size_po2 < dmh.zone_size))]

theorem po2zone_map_read_split_at_boundary_witness :
    geo12.wf ∧ 0 < 2 ∧ 2 ≤ geo12.zone_size ∧ 0 < 3 ∧ 3 ≤ geo12.zone_size_diff ∧
    (dm_po2z_map geo12
        ⟨1 * geo12.zone_size_po2 + (geo12.zone_size - 2), 2 + 3,
          ReqOp.read, 0, false, false⟩ =
      (MapRet.remapped,
        ⟨target_to_device_sect geo12
            (1 * geo12.zone_size_po2 + (geo12.zone_size - 2)),
          2, ReqOp.read, 0, false, false⟩) ∧
    dm_po2z_map geo12
        ⟨1 * geo12.zone_size_po2 + geo12.zone_size, 3,
          ReqOp.read, 0, false, false⟩ =
      (MapRet.submitted,
        ⟨1 * geo12.zone_size_po2 + geo12.zone_size, 3,
          ReqOp.read, 0, true, true⟩)) :=
  ⟨by decide, by decide, by decide, by decide, by decide,
    po2zone_map_read_split_at_boundary geo12 (by decide) 1 2 3 0
      (by decide) (by decide) (by decide) (by decide)⟩
